import Mathlib

/-!
Shallow embedding of the protocol-policy chain of
`src/libcaf_io/test/protocol_policy.cpp`: the `basp_policy` leaf codec, the
`ordering` decorator layer, and the `newb` endpoint that drives read, write
and timeout events.  Machine integers are modelled as `Nat` with explicit
reduction modulo `2 ^ 32` (for `uint32_t`) and `2 ^ 64` (for `size_t` and
`actor_id`); multi-byte fields copied with `memcpy` are modelled as a fixed
little-endian byte encoding, used consistently by readers and writers.
Buffers and byte slices are `List Nat`, each entry one byte.
-/

namespace ProtocolPolicy

/-- Modulus of `uint32_t` values. -/
def u32size : Nat := 2 ^ 32

/-- Modulus of `size_t` / `uint64_t` values. -/
def u64size : Nat := 2 ^ 64

/-- `size_t` subtraction (`a - b` on unsigned 64-bit values): wraps around
modulo `2 ^ 64` when `b > a`, exactly as in the C++ source. -/
def ssub (a b : Nat) : Nat := (a + u64size - b) % u64size

/-- Little-endian decoding of a byte list, as produced by `memcpy` into an
unsigned integer on the reference (little-endian) platform. -/
def readLE : List Nat → Nat
  | [] => 0
  | b :: bs => b + 256 * readLE bs

/-- Little-endian encoding of `v` into `n` bytes, as produced by `memcpy`
from an unsigned integer on the reference platform. -/
def writeLE : Nat → Nat → List Nat
  | 0, _ => []
  | n + 1, v => v % 256 :: writeLE n (v / 256)

/-- `basp_header`: two `actor_id` (= `uint64_t`) fields `from` and `to`. -/
structure basp_header where
  from_ : Nat
  to_ : Nat
deriving DecidableEq, Repr

/-- `sizeof(basp_header)`: two 8-byte actor ids. -/
def basp_header_size : Nat := 16

/-- `basp_policy::offset`. -/
def basp_offset : Nat := basp_header_size

/-- `sizeof(ordering_header)`: one `uint32_t` sequence number. -/
def ordering_header_size : Nat := 4

/-- `ordering<basp_policy>::offset = Next::offset + header_size`. -/
def ordering_offset : Nat := basp_offset + ordering_header_size

/-- `new_basp_message`: decoded header plus payload view.  The C++ message
stores a pointer `bytes + header_size` together with a separate
`payload_size` field; here `payload` is the byte sequence that pointer
designates (the slice bytes past the header) and `payload_size` is the
separately computed `count - header_size` in `size_t` arithmetic. -/
structure new_basp_message where
  header : basp_header
  payload : List Nat
  payload_size : Nat
deriving DecidableEq, Repr

/-- A `caf::message` as the ordering layer's `timeout` observes it:
`msg.apply` either matches the shape `(ordering_atom, uint32_t seq)` or it
does not match and the message is delegated inward. -/
inductive caf_message where
  | ordering_tag (seq : Nat) : caf_message
  | other_msg : caf_message
deriving DecidableEq, Repr

/-- The one error code `newb` produces: `sec::unexpected_message`. -/
inductive sec where
  | unexpected_message : sec
deriving DecidableEq, Repr

/-- A `caf::error`: `none` is the no-error value. -/
abbrev caf_error : Type := Option sec

/-- `basp_policy::read`: copies `from` from bytes `[0, 8)`, `to` from bytes
`[8, 16)`, points `payload` at `bytes + header_size` and sets
`payload_size = count - header_size` (`size_t` arithmetic, so it wraps when
`count < header_size`).  Always returns a message. -/
def basp_read (bytes : List Nat) (count : Nat) : Option new_basp_message :=
  some
    { header :=
        { from_ := readLE (bytes.take 8)
        , to_ := readLE ((bytes.drop 8).take 8) }
    , payload := bytes.drop basp_header_size
    , payload_size := ssub count basp_header_size }

/-- `basp_policy::timeout`: always `none`. -/
def basp_timeout (_msg : caf_message) : Option new_basp_message := none

/-- `basp_policy::write_header`: invokes the header-writer callback on the
buffer and returns `offset + header_size`. -/
def basp_write_header (buf : List Nat) (offset : Nat)
    (hw : List Nat → List Nat) : List Nat × Nat :=
  (hw buf, offset + basp_header_size)

/-- State of the `ordering<basp_policy>` layer: the two `uint32_t` sequence
counters and the `pending` table (`std::unordered_map<uint32_t,
std::vector<char>>`, modelled as an association list). -/
structure ordering_state where
  next_seq_read : Nat
  next_seq_write : Nat
  pending : List (Nat × List Nat)
deriving DecidableEq, Repr

/-- Lookup in the pending table (`pending.count(seq) > 0` / `pending[seq]`
on an existing key). -/
def pending_lookup (seq : Nat) : List (Nat × List Nat) → Option (List Nat)
  | [] => none
  | (k, v) :: rest => if k = seq then some v else pending_lookup seq rest

/-- Insert-or-assign in the pending table (`pending[seq] = v`). -/
def pending_insert (seq : Nat) (v : List Nat) :
    List (Nat × List Nat) → List (Nat × List Nat)
  | [] => [(seq, v)]
  | (k, w) :: rest =>
    if k = seq then (k, v) :: rest else (k, w) :: pending_insert seq v rest

/-- `ordering::read`: parse the `uint32_t` sequence number from the first
four bytes.  If it differs from `next_seq_read`, store the bytes past the
sequencing header in `pending[seq]`, request one timeout tagged
`(ordering_atom, seq)` and return no message.  Otherwise increment
`next_seq_read` and forward `bytes + header_size, count - header_size` to
`basp_policy::read`.  The third component collects the `set_timeout`
requests issued during the call. -/
def ordering_read (st : ordering_state) (bytes : List Nat) (count : Nat) :
    Option new_basp_message × ordering_state × List caf_message :=
  if readLE (bytes.take ordering_header_size) ≠ st.next_seq_read then
    (none,
     { st with
        pending :=
          pending_insert (readLE (bytes.take ordering_header_size))
            ((bytes.drop ordering_header_size).take
              (count - ordering_header_size))
            st.pending },
     [caf_message.ordering_tag (readLE (bytes.take ordering_header_size))])
  else
    (basp_read (bytes.drop ordering_header_size)
       (ssub count ordering_header_size),
     { st with next_seq_read := (st.next_seq_read + 1) % u32size },
     [])

/-- `ordering::timeout`: if `msg.apply` matches `(ordering_atom, seq)` and
`seq` has a pending entry, forward the buffered bytes to
`basp_policy::read`; if matched without an entry, return no message; if the
shape does not match, delegate to `basp_policy::timeout`.  The source never
erases the pending entry and never touches the counters, so the state is
returned unchanged. -/
def ordering_timeout (st : ordering_state) (msg : caf_message) :
    Option new_basp_message × ordering_state :=
  match msg with
  | caf_message.ordering_tag seq =>
    match pending_lookup seq st.pending with
    | some buf => (basp_read buf buf.length, st)
    | none => (none, st)
  | caf_message.other_msg => (basp_timeout msg, st)

/-- `ordering::write_header`: append the four bytes of `next_seq_write`,
increment the counter (`uint32_t`), then delegate to
`basp_policy::write_header` with `offset + header_size`. -/
def ordering_write_header (st : ordering_state) (buf : List Nat)
    (offset : Nat) (hw : List Nat → List Nat) :
    ordering_state × List Nat × Nat :=
  let buf2 := buf ++ writeLE ordering_header_size st.next_seq_write
  let st2 := { st with next_seq_write := (st.next_seq_write + 1) % u32size }
  let r := basp_write_header buf2 (offset + ordering_header_size) hw
  (st2, r.1, r.2)

/-- State of a `newb<new_basp_message>` endpoint with the
`ordering<basp_policy>` protocol chain: the transport's two buffers, the
ordering state, and the test fixture's logs of scheduled timeout messages
(`set_timeout_impl`) and handled messages (`handle`). -/
structure newb_state where
  ord : ordering_state
  receive_buffer : List Nat
  send_buffer : List Nat
  timeout_messages : List caf_message
  messages : List new_basp_message
deriving DecidableEq, Repr

/-- `transport_policy::read_some(parent, policy)`: if the virtual transport
read reports an error (`terr`, decided by the external transport
collaborator), return no message without consulting the protocol chain;
otherwise run `policy.read` on the whole receive buffer. -/
def read_some (terr : Bool) (ord : ordering_state) (rcv : List Nat) :
    Option new_basp_message × ordering_state × List caf_message :=
  if terr then (none, ord, [])
  else ordering_read ord rcv rcv.length

/-- `newb::read_event`: run `transport->read_some`; on no message return
`make_error(sec::unexpected_message)`, otherwise `handle` the message and
return no error. -/
def read_event (terr : Bool) (st : newb_state) : caf_error × newb_state :=
  let r := read_some terr st.ord st.receive_buffer
  let st2 :=
    { st with
        ord := r.2.1
      , timeout_messages := st.timeout_messages ++ r.2.2 }
  match r.1 with
  | none => (some sec.unexpected_message, st2)
  | some m => (none, { st2 with messages := st2.messages ++ [m] })

/-- `newb::timeout_event`: run `protocol->timeout`; on no message return
`make_error(sec::unexpected_message)`, otherwise `handle` the message. -/
def timeout_event (st : newb_state) (msg : caf_message) :
    caf_error × newb_state :=
  let r := ordering_timeout st.ord msg
  match r.1 with
  | none => (some sec.unexpected_message, { st with ord := r.2 })
  | some m =>
    (none, { st with ord := r.2, messages := st.messages ++ [m] })

/-- `newb::wr_buf`: take the transport's send buffer, let the protocol
chain write its headers starting at offset 0, and return the new state
together with the `header_offset` of the resulting `write_handle`. -/
def wr_buf (st : newb_state) (hw : List Nat → List Nat) :
    newb_state × Nat :=
  let r := ordering_write_header st.ord st.send_buffer 0 hw
  ({ st with ord := r.1, send_buffer := r.2.1 }, r.2.2)

/-- The test's header-writer callback: appends the `from` and `to` fields
of a `basp_header` to the buffer, eight bytes each. -/
def hw_basp (bh : basp_header) : List Nat → List Nat :=
  fun buf => buf ++ (writeLE 8 bh.from_ ++ writeLE 8 bh.to_)

/-- Fresh ordering state, as constructed by the fixture. -/
def ost0 : ordering_state :=
  { next_seq_read := 0, next_seq_write := 0, pending := [] }

/-- Ordering state expecting sequence number 1 next. -/
def ost1 : ordering_state :=
  { next_seq_read := 1, next_seq_write := 0, pending := [] }

/-- The test buffer: sequence number 0, basp header `{from:13, to:42}`,
payload `1337` as a 4-byte integer. -/
def bytes_seq0 : List Nat :=
  writeLE 4 0 ++ (writeLE 8 13 ++ (writeLE 8 42 ++ writeLE 4 1337))

/-- The same test buffer stamped with sequence number 1. -/
def bytes_seq1 : List Nat :=
  writeLE 4 1 ++ (writeLE 8 13 ++ (writeLE 8 42 ++ writeLE 4 1337))

/-- The bytes of `bytes_seq1` past the sequencing header. -/
def inner_seq1 : List Nat :=
  writeLE 8 13 ++ (writeLE 8 42 ++ writeLE 4 1337)

/-- Ordering state holding the payload of sequence number 1 in its pending
table, as left behind by an out-of-order read of `bytes_seq1`. -/
def ost_pend1 : ordering_state :=
  { next_seq_read := 0, next_seq_write := 0, pending := [(1, inner_seq1)] }

/-- Endpoint whose receive buffer holds the out-of-order `bytes_seq1`. -/
def nst_seq1 : newb_state :=
  { ord := ost0, receive_buffer := bytes_seq1, send_buffer := []
  , timeout_messages := [], messages := [] }

/-- Fresh endpoint used as the sending side of the round-trip test. -/
def nst_sender : newb_state :=
  { ord := ost0, receive_buffer := [], send_buffer := []
  , timeout_messages := [], messages := [] }

/-- The wire bytes of the round-trip test: the send buffer produced by
`wr_buf` with the basp header-writer for `{from:13, to:42}`, followed by the
appended 4-byte payload `1337`. -/
def wire0 : List Nat :=
  (wr_buf nst_sender (hw_basp { from_ := 13, to_ := 42 })).1.send_buffer
    ++ writeLE 4 1337

/-- `size_t` subtraction agrees with `Nat` subtraction when no wraparound
occurs. -/
theorem ssub_eq_sub {a b : Nat} (hba : b ≤ a) (ha : a < u64size) :
    ssub a b = a - b := by
  unfold ssub
  have h1 : a + u64size - b = u64size + (a - b) := by omega
  rw [h1, Nat.add_mod_left, Nat.mod_eq_of_lt (by omega)]

/-- `writeLE` produces exactly `n` bytes. -/
theorem writeLE_length (n v : Nat) : (writeLE n v).length = n := by
  induction n generalizing v with
  | zero => rfl
  | succ m ih => simp [writeLE, ih]

/-- Decoding inverts encoding for values that fit in `n` bytes. -/
theorem readLE_writeLE (n v : Nat) (h : v < 256 ^ n) :
    readLE (writeLE n v) = v := by
  induction n generalizing v with
  | zero =>
    simp only [pow_zero, Nat.lt_one_iff] at h
    simp [writeLE, readLE, h]
  | succ m ih =>
    have hdiv : v / 256 < 256 ^ m := by
      rw [Nat.div_lt_iff_lt_mul (by norm_num)]
      calc v < 256 ^ (m + 1) := h
        _ = 256 ^ m * 256 := by ring
    simp only [writeLE, readLE, ih _ hdiv]
    omega

/-- Looking up a key just inserted returns the inserted value. -/
theorem pending_lookup_insert (seq : Nat) (v : List Nat)
    (ps : List (Nat × List Nat)) :
    pending_lookup seq (pending_insert seq v ps) = some v := by
  induction ps with
  | nil => simp [pending_insert, pending_lookup]
  | cons p rest ih =>
    obtain ⟨k, w⟩ := p
    by_cases hk : k = seq
    · simp [pending_insert, pending_lookup, hk]
    · simp [pending_insert, pending_lookup, hk, ih]

/-- C1: a read of a well-formed buffer whose 32-bit sequencing header
equals `next_seq_read` yields exactly one decoded message whose `from` and
`to` fields are decoded from bytes `[4, 12)` and `[12, 20)` of the buffer,
whose payload is the buffer bytes past the combined 20-byte header, whose
`payload_size` is the remaining byte count, and `next_seq_read` increases
by exactly 1. -/
theorem c1_in_order_read (st : ordering_state) (bytes : List Nat)
    (count : Nat)
    (hlen : bytes.length = count) (hcount : ordering_offset ≤ count)
    (hbound : count < u64size)
    (hseq : readLE (bytes.take ordering_header_size) = st.next_seq_read)
    (hctr : st.next_seq_read + 1 < u32size) :
    ∃ m : new_basp_message,
      (ordering_read st bytes count).1 = some m ∧
      m.header.from_ = readLE ((bytes.drop ordering_header_size).take 8) ∧
      m.header.to_ =
        readLE (((bytes.drop ordering_header_size).drop 8).take 8) ∧
      m.payload = bytes.drop ordering_offset ∧
      m.payload_size = bytes.length - ordering_offset ∧
      (ordering_read st bytes count).2.1.next_seq_read =
        st.next_seq_read + 1 := by
  have hne : ¬ readLE (bytes.take ordering_header_size) ≠ st.next_seq_read :=
    not_not_intro hseq
  have hoff : ordering_offset = ordering_header_size + basp_header_size := by
    decide
  have hs1 : ssub count ordering_header_size = count - ordering_header_size :=
    ssub_eq_sub (by omega) hbound
  have hs2 : ssub (count - ordering_header_size) basp_header_size =
      count - ordering_offset := by
    rw [ssub_eq_sub (by omega) (by omega), hoff]
    omega
  refine
    ⟨{ header :=
        { from_ := readLE ((bytes.drop ordering_header_size).take 8)
        , to_ := readLE (((bytes.drop ordering_header_size).drop 8).take 8) }
     , payload := (bytes.drop ordering_header_size).drop basp_header_size
     , payload_size := ssub (ssub count ordering_header_size)
         basp_header_size }, ?_, rfl, rfl, ?_, ?_, ?_⟩
  · simp only [ordering_read, if_neg hne]
    rfl
  · show (bytes.drop ordering_header_size).drop basp_header_size =
      bytes.drop ordering_offset
    rw [List.drop_drop, hoff]
  · show ssub (ssub count ordering_header_size) basp_header_size =
      bytes.length - ordering_offset
    rw [hs1, hs2, hlen]
  · simp [ordering_read, hne, Nat.mod_eq_of_lt hctr]

/-- C1 witness: the in-order test scenario (sequence 0, header
`{from:13, to:42}`, payload `1337`). -/
theorem c1_in_order_read_witness :
    bytes_seq0.length = 24 ∧ ordering_offset ≤ 24 ∧ 24 < u64size ∧
    readLE (bytes_seq0.take ordering_header_size) = ost0.next_seq_read ∧
    ost0.next_seq_read + 1 < u32size ∧
    (∃ m : new_basp_message,
      (ordering_read ost0 bytes_seq0 24).1 = some m ∧
      m.header.from_ =
        readLE ((bytes_seq0.drop ordering_header_size).take 8) ∧
      m.header.to_ =
        readLE (((bytes_seq0.drop ordering_header_size).drop 8).take 8) ∧
      m.payload = bytes_seq0.drop ordering_offset ∧
      m.payload_size = bytes_seq0.length - ordering_offset ∧
      (ordering_read ost0 bytes_seq0 24).2.1.next_seq_read =
        ost0.next_seq_read + 1) :=
  ⟨by decide, by decide, by decide, by decide, by decide,
   c1_in_order_read ost0 bytes_seq0 24 (by decide) (by decide) (by decide)
     (by decide) (by decide)⟩

/-- C2: a read whose parsed sequence number differs from `next_seq_read`
returns no message, schedules exactly one timeout tagged with that sequence
number, and stores the buffer bytes past the sequencing header verbatim in
the pending table under that sequence number. -/
theorem c2_out_of_order_read (st : ordering_state) (bytes : List Nat)
    (count : Nat)
    (hlen : bytes.length = count)
    (hseq : readLE (bytes.take ordering_header_size) ≠ st.next_seq_read) :
    (ordering_read st bytes count).1 = none ∧
    (ordering_read st bytes count).2.2 =
      [caf_message.ordering_tag (readLE (bytes.take ordering_header_size))] ∧
    pending_lookup (readLE (bytes.take ordering_header_size))
        (ordering_read st bytes count).2.1.pending =
      some (bytes.drop ordering_header_size) := by
  have htake : (bytes.drop ordering_header_size).take
      (count - ordering_header_size) = bytes.drop ordering_header_size := by
    apply List.take_of_length_le
    rw [List.length_drop, hlen]
  refine ⟨?_, ?_, ?_⟩
  · simp [ordering_read, hseq]
  · simp [ordering_read, hseq]
  · simp only [ordering_read, if_pos hseq, htake]
    exact pending_lookup_insert _ _ _

/-- C2 witness: the out-of-order test scenario (sequence 1 while 0 is
expected). -/
theorem c2_out_of_order_read_witness :
    bytes_seq1.length = 24 ∧
    readLE (bytes_seq1.take ordering_header_size) ≠ ost0.next_seq_read ∧
    ((ordering_read ost0 bytes_seq1 24).1 = none ∧
     (ordering_read ost0 bytes_seq1 24).2.2 =
       [caf_message.ordering_tag
         (readLE (bytes_seq1.take ordering_header_size))] ∧
     pending_lookup (readLE (bytes_seq1.take ordering_header_size))
         (ordering_read ost0 bytes_seq1 24).2.1.pending =
       some (bytes_seq1.drop ordering_header_size)) :=
  ⟨by decide, by decide,
   c2_out_of_order_read ost0 bytes_seq1 24 (by decide) (by decide)⟩

/-- C3: firing a timeout tagged with a pending sequence number returns the
same decoded message an in-order read would return for any buffer whose
bytes past the sequencing header are the pending bytes. -/
theorem c3_timeout_replay (st st2 : ordering_state) (seq : Nat)
    (buf bytes : List Nat) (count : Nat)
    (hp : pending_lookup seq st.pending = some buf)
    (hbytes : bytes.drop ordering_header_size = buf)
    (hlen : bytes.length = count) (hc : ordering_header_size ≤ count)
    (hbound : count < u64size)
    (hseq2 : readLE (bytes.take ordering_header_size) = st2.next_seq_read) :
    (ordering_timeout st (caf_message.ordering_tag seq)).1 =
      (ordering_read st2 bytes count).1 := by
  have hne : ¬ readLE (bytes.take ordering_header_size) ≠
      st2.next_seq_read := not_not_intro hseq2
  have hblen : buf.length = ssub count ordering_header_size := by
    rw [← hbytes, List.length_drop, hlen,
      ssub_eq_sub hc hbound]
  simp only [ordering_timeout, hp, ordering_read, if_neg hne, hbytes, hblen]

/-- C3 witness: replaying the buffered payload of sequence 1 equals the
in-order read of `bytes_seq1` by a receiver expecting sequence 1. -/
theorem c3_timeout_replay_witness :
    pending_lookup 1 ost_pend1.pending = some inner_seq1 ∧
    bytes_seq1.drop ordering_header_size = inner_seq1 ∧
    bytes_seq1.length = 24 ∧ ordering_header_size ≤ 24 ∧ 24 < u64size ∧
    readLE (bytes_seq1.take ordering_header_size) = ost1.next_seq_read ∧
    (ordering_timeout ost_pend1 (caf_message.ordering_tag 1)).1 =
      (ordering_read ost1 bytes_seq1 24).1 :=
  ⟨by decide, by decide, by decide, by decide, by decide, by decide,
   c3_timeout_replay ost_pend1 ost1 1 inner_seq1 bytes_seq1 24 (by decide)
     (by decide) (by decide) (by decide) (by decide) (by decide)⟩

/-- C4 counterexample: replaying the pending entry for sequence number 1
delivers a message, yet the entry is still present in the pending table
afterwards — `ordering::timeout` never erases it, so the entry is not
consumed and a delivered sequence number remains in the table. -/
theorem c4_pending_not_consumed_counterexample :
    (ordering_timeout ost_pend1 (caf_message.ordering_tag 1)).1.isSome =
      true ∧
    pending_lookup 1
        (ordering_timeout ost_pend1 (caf_message.ordering_tag 1)).2.pending =
      some inner_seq1 := by
  decide

/-- C4 amended: after a timeout replay forwards a buffered payload for
sequence number `seq`, the pending-table entry for `seq` is not removed:
the ordering state, including the pending table, is returned unchanged, so
a sequence number present in the table may already have had its payload
delivered to the application handler. -/
theorem c4_pending_not_consumed (st : ordering_state) (seq : Nat)
    (buf : List Nat)
    (hp : pending_lookup seq st.pending = some buf) :
    (ordering_timeout st (caf_message.ordering_tag seq)).1 =
      basp_read buf buf.length ∧
    (ordering_timeout st (caf_message.ordering_tag seq)).2 = st ∧
    pending_lookup seq
        (ordering_timeout st (caf_message.ordering_tag seq)).2.pending =
      some buf := by
  refine ⟨?_, ?_, ?_⟩ <;> simp [ordering_timeout, hp]

/-- C4 amended witness: the concrete replay of sequence number 1. -/
theorem c4_pending_not_consumed_witness :
    pending_lookup 1 ost_pend1.pending = some inner_seq1 ∧
    ((ordering_timeout ost_pend1 (caf_message.ordering_tag 1)).1 =
       basp_read inner_seq1 inner_seq1.length ∧
     (ordering_timeout ost_pend1 (caf_message.ordering_tag 1)).2 =
       ost_pend1 ∧
     pending_lookup 1
         (ordering_timeout ost_pend1
           (caf_message.ordering_tag 1)).2.pending =
       some inner_seq1) :=
  ⟨by decide, c4_pending_not_consumed ost_pend1 1 inner_seq1 (by decide)⟩

/-- C5 counterexample: a read event with a failing transport and a read
event with a working transport but an out-of-order buffer return the very
same value `some sec.unexpected_message` — the caller cannot tell the
buffered-pending outcome from a transport failure. -/
theorem c5_error_conflation_counterexample :
    (read_event true nst_seq1).1 = some sec.unexpected_message ∧
    (read_event false nst_seq1).1 = some sec.unexpected_message ∧
    (read_event true nst_seq1).1 = (read_event false nst_seq1).1 := by
  decide

/-- C5 amended: `read_event` returns the single error value
`sec::unexpected_message` both when the transport read fails and when the
protocol chain legitimately produces no message, so the returned value does
not distinguish the buffered-pending outcome from a transport failure. -/
theorem c5_error_conflation (s1 s2 : newb_state)
    (h : (ordering_read s2.ord s2.receive_buffer
           s2.receive_buffer.length).1 = none) :
    (read_event true s1).1 = some sec.unexpected_message ∧
    (read_event false s2).1 = some sec.unexpected_message ∧
    (read_event true s1).1 = (read_event false s2).1 := by
  have h1 : (read_event true s1).1 = some sec.unexpected_message := by
    simp [read_event, read_some]
  have h2 : (read_event false s2).1 = some sec.unexpected_message := by
    simp [read_event, read_some, h]
  exact ⟨h1, h2, by rw [h1, h2]⟩

/-- C5 amended witness: concrete states for both failure modes. -/
theorem c5_error_conflation_witness :
    (ordering_read nst_seq1.ord nst_seq1.receive_buffer
       nst_seq1.receive_buffer.length).1 = none ∧
    ((read_event true nst_seq1).1 = some sec.unexpected_message ∧
     (read_event false nst_seq1).1 = some sec.unexpected_message ∧
     (read_event true nst_seq1).1 = (read_event false nst_seq1).1) :=
  ⟨by decide, c5_error_conflation nst_seq1 nst_seq1 (by decide)⟩

/-- C6: bytes produced by `wr_buf` with the basp header-writer followed by
an appended payload, read back through the ordering+basp chain by a
receiver whose `next_seq_read` equals the stamped sequence number, decode
to the original header fields and the original payload bytes. -/
theorem c6_round_trip (bh : basp_header) (payload : List Nat) (w : Nat)
    (sender receiver : newb_state) (wire : List Nat)
    (hf : bh.from_ < u64size) (ht : bh.to_ < u64size) (hww : w < u32size)
    (hsb : sender.send_buffer = [])
    (hsw : sender.ord.next_seq_write = w)
    (hrr : receiver.ord.next_seq_read = w)
    (hplen : payload.length + ordering_offset < u64size)
    (hwire : wire = (wr_buf sender (hw_basp bh)).1.send_buffer ++ payload) :
    (ordering_read receiver.ord wire wire.length).1 =
      some { header := bh, payload := payload
           , payload_size := payload.length } := by
  have h4 : ordering_header_size = 4 := rfl
  have h16 : basp_header_size = 16 := rfl
  have h20 : ordering_offset = 20 := rfl
  have h256_4 : (256 : Nat) ^ 4 = u32size := by norm_num [u32size]
  have h256_8 : (256 : Nat) ^ 8 = u64size := by norm_num [u64size]
  rw [h20] at hplen
  have hwire2 : wire = writeLE 4 w ++
      (writeLE 8 bh.from_ ++ (writeLE 8 bh.to_ ++ payload)) := by
    rw [hwire]
    simp [wr_buf, ordering_write_header, basp_write_header, hw_basp, hsb,
      hsw, h4, List.append_assoc]
  have hA : (writeLE 4 w).length = ordering_header_size := by
    rw [writeLE_length, h4]
  have hB : (writeLE 8 bh.from_).length = 8 := writeLE_length 8 _
  have hC : (writeLE 8 bh.to_).length = 8 := writeLE_length 8 _
  have hseq : readLE (wire.take ordering_header_size) =
      receiver.ord.next_seq_read := by
    rw [hwire2, List.take_left' hA,
      readLE_writeLE 4 w (by rw [h256_4]; exact hww), hrr]
  have hne : ¬ readLE (wire.take ordering_header_size) ≠
      receiver.ord.next_seq_read := not_not_intro hseq
  have hD : wire.drop ordering_header_size =
      writeLE 8 bh.from_ ++ (writeLE 8 bh.to_ ++ payload) := by
    rw [hwire2, List.drop_left' hA]
  have hlenw : wire.length = 20 + payload.length := by
    rw [hwire2]
    simp [List.length_append, writeLE_length]
    omega
  have hcnt : ssub wire.length ordering_header_size =
      16 + payload.length := by
    rw [hlenw, h4, ssub_eq_sub (by omega) (by omega)]
    omega
  have hfrom : readLE
      ((writeLE 8 bh.from_ ++ (writeLE 8 bh.to_ ++ payload)).take 8) =
      bh.from_ := by
    rw [List.take_left' hB,
      readLE_writeLE 8 _ (by rw [h256_8]; exact hf)]
  have hto : readLE
      (((writeLE 8 bh.from_ ++ (writeLE 8 bh.to_ ++ payload)).drop 8).take
        8) = bh.to_ := by
    rw [List.drop_left' hB, List.take_left' hC,
      readLE_writeLE 8 _ (by rw [h256_8]; exact ht)]
  have hpay : (writeLE 8 bh.from_ ++
      (writeLE 8 bh.to_ ++ payload)).drop basp_header_size = payload := by
    rw [← List.append_assoc]
    exact List.drop_left' (by simp [List.length_append, hB, hC, h16])
  have hps : ssub (16 + payload.length) basp_header_size =
      payload.length := by
    rw [h16, ssub_eq_sub (by omega) (by omega)]
    omega
  simp only [ordering_read, if_neg hne, hD, hcnt, basp_read, hfrom, hto,
    hpay, hps]

/-- C6 witness: the concrete round-trip of the test — sequence 0, header
`{from:13, to:42}`, payload `1337` as a 4-byte integer. -/
theorem c6_round_trip_witness :
    (13 : Nat) < u64size ∧ (42 : Nat) < u64size ∧ (0 : Nat) < u32size ∧
    nst_sender.send_buffer = [] ∧
    nst_sender.ord.next_seq_write = 0 ∧
    nst_sender.ord.next_seq_read = 0 ∧
    (writeLE 4 1337).length + ordering_offset < u64size ∧
    wire0 =
      (wr_buf nst_sender
        (hw_basp { from_ := 13, to_ := 42 })).1.send_buffer ++
        writeLE 4 1337 ∧
    (ordering_read nst_sender.ord wire0 wire0.length).1 =
      some { header := { from_ := 13, to_ := 42 }
           , payload := writeLE 4 1337
           , payload_size := (writeLE 4 1337).length } :=
  ⟨by decide, by decide, by decide, by decide, by decide, by decide,
   by decide, rfl,
   c6_round_trip { from_ := 13, to_ := 42 } (writeLE 4 1337) 0 nst_sender
     nst_sender wire0 (by decide) (by decide) (by decide) (by decide)
     (by decide) (by decide) (by decide) rfl⟩

/-- C7: the chain's `offset` constant is the sum of the sequencing header
size and the application header size, and the `header_offset` of the write
handle returned by `wr_buf` equals that same sum. -/
theorem c7_offset_additivity (st : newb_state) (hw : List Nat → List Nat) :
    ordering_offset = ordering_header_size + basp_header_size ∧
    (wr_buf st hw).2 = ordering_offset := by
  constructor
  · decide
  · simp [wr_buf, ordering_write_header, basp_write_header, ordering_offset,
      basp_offset]
    omega

/-- C8: a timeout whose tag has no pending entry — whether it carries an
absent sequence number or does not match the ordering tag shape at all and
is delegated to the inner layer — produces no message and leaves the
pending table unchanged. -/
theorem c8_no_match_timeout (st : ordering_state) (msg : caf_message)
    (h : ∀ seq : Nat, msg = caf_message.ordering_tag seq →
           pending_lookup seq st.pending = none) :
    (ordering_timeout st msg).1 = none ∧
    (ordering_timeout st msg).2.pending = st.pending := by
  cases msg with
  | ordering_tag seq =>
    have hp := h seq rfl
    simp [ordering_timeout, hp]
  | other_msg => simp [ordering_timeout, basp_timeout]

/-- C8 witness: a timeout tagged with the absent sequence number 5 on an
empty pending table. -/
theorem c8_no_match_timeout_witness :
    (∀ seq : Nat, caf_message.ordering_tag 5 = caf_message.ordering_tag seq →
       pending_lookup seq ost0.pending = none) ∧
    ((ordering_timeout ost0 (caf_message.ordering_tag 5)).1 = none ∧
     (ordering_timeout ost0 (caf_message.ordering_tag 5)).2.pending =
       ost0.pending) :=
  ⟨fun _ _ => rfl,
   c8_no_match_timeout ost0 (caf_message.ordering_tag 5) fun _ _ => rfl⟩

/-- C9: `next_seq_read` increases by exactly 1 on an in-order read and is
untouched by an out-of-order read, by a timeout, and by `write_header`;
`next_seq_write` increases by exactly 1 on `write_header` and is untouched
by reads and timeouts. -/
theorem c9_counter_frame (st : ordering_state) (bytes : List Nat)
    (count : Nat) (msg : caf_message) (buf : List Nat) (offset : Nat)
    (hwr : List Nat → List Nat)
    (h1 : st.next_seq_read + 1 < u32size)
    (h2 : st.next_seq_write + 1 < u32size) :
    (readLE (bytes.take ordering_header_size) = st.next_seq_read →
      (ordering_read st bytes count).2.1.next_seq_read =
        st.next_seq_read + 1 ∧
      (ordering_read st bytes count).2.1.next_seq_write =
        st.next_seq_write) ∧
    (readLE (bytes.take ordering_header_size) ≠ st.next_seq_read →
      (ordering_read st bytes count).2.1.next_seq_read =
        st.next_seq_read ∧
      (ordering_read st bytes count).2.1.next_seq_write =
        st.next_seq_write) ∧
    ((ordering_timeout st msg).2.next_seq_read = st.next_seq_read ∧
     (ordering_timeout st msg).2.next_seq_write = st.next_seq_write) ∧
    ((ordering_write_header st buf offset hwr).1.next_seq_write =
       st.next_seq_write + 1 ∧
     (ordering_write_header st buf offset hwr).1.next_seq_read =
       st.next_seq_read) := by
  refine ⟨?_, ?_, ?_, ?_⟩
  · intro hseq
    have hne : ¬ readLE (bytes.take ordering_header_size) ≠
        st.next_seq_read := not_not_intro hseq
    constructor
    · simp [ordering_read, hne, Nat.mod_eq_of_lt h1]
    · simp [ordering_read, hne]
  · intro hseq
    constructor
    · simp [ordering_read, hseq]
    · simp [ordering_read, hseq]
  · cases msg with
    | ordering_tag seq =>
      cases hL : pending_lookup seq st.pending <;>
        simp [ordering_timeout, hL]
    | other_msg => simp [ordering_timeout, basp_timeout]
  · constructor
    · simp [ordering_write_header, basp_write_header, Nat.mod_eq_of_lt h2]
    · simp [ordering_write_header, basp_write_header]

/-- C9 witness: the fresh state with the in-order test buffer, a no-match
timeout and a header write. -/
theorem c9_counter_frame_witness :
    ost0.next_seq_read + 1 < u32size ∧ ost0.next_seq_write + 1 < u32size ∧
    ((readLE (bytes_seq0.take ordering_header_size) = ost0.next_seq_read →
       (ordering_read ost0 bytes_seq0 24).2.1.next_seq_read =
         ost0.next_seq_read + 1 ∧
       (ordering_read ost0 bytes_seq0 24).2.1.next_seq_write =
         ost0.next_seq_write) ∧
     (readLE (bytes_seq0.take ordering_header_size) ≠ ost0.next_seq_read →
       (ordering_read ost0 bytes_seq0 24).2.1.next_seq_read =
         ost0.next_seq_read ∧
       (ordering_read ost0 bytes_seq0 24).2.1.next_seq_write =
         ost0.next_seq_write) ∧
     ((ordering_timeout ost0 caf_message.other_msg).2.next_seq_read =
        ost0.next_seq_read ∧
      (ordering_timeout ost0 caf_message.other_msg).2.next_seq_write =
        ost0.next_seq_write) ∧
     ((ordering_write_header ost0 [] 0 (hw_basp
         { from_ := 13, to_ := 42 })).1.next_seq_write =
        ost0.next_seq_write + 1 ∧
      (ordering_write_header ost0 [] 0 (hw_basp
         { from_ := 13, to_ := 42 })).1.next_seq_read =
        ost0.next_seq_read)) :=
  ⟨by decide, by decide,
   c9_counter_frame ost0 bytes_seq0 24 caf_message.other_msg [] 0
     (hw_basp { from_ := 13, to_ := 42 }) (by decide) (by decide)⟩

/-- C10: `basp_policy::read` returns a message for every input slice, and
when the slice length `count` is smaller than the 16-byte basp header the
returned `payload_size` is `count - header_size` wrapped modulo `2 ^ 64`,
an enormous value of at least `2 ^ 64 - 16`. -/
theorem c10_short_buffer_wraparound (bytes : List Nat) (count : Nat)
    (h : count < basp_header_size) :
    (∀ (b : List Nat) (c : Nat), (basp_read b c).isSome = true) ∧
    ∃ m : new_basp_message, basp_read bytes count = some m ∧
      m.payload_size = u64size - (basp_header_size - count) ∧
      u64size - basp_header_size ≤ m.payload_size := by
  have hh : basp_header_size = 16 := rfl
  have h64 : u64size = 18446744073709551616 := by norm_num [u64size]
  refine ⟨fun b c => rfl, ?_⟩
  refine ⟨_, rfl, ?_, ?_⟩
  · show ssub count basp_header_size =
      u64size - (basp_header_size - count)
    unfold ssub
    have heq : count + u64size - basp_header_size =
        u64size - (basp_header_size - count) := by omega
    rw [heq, Nat.mod_eq_of_lt (by omega)]
  · show u64size - basp_header_size ≤ ssub count basp_header_size
    unfold ssub
    have heq : count + u64size - basp_header_size =
        u64size - (basp_header_size - count) := by omega
    rw [heq, Nat.mod_eq_of_lt (by omega)]
    omega

/-- C10 witness: the empty slice with `count = 0`. -/
theorem c10_short_buffer_wraparound_witness :
    0 < basp_header_size ∧
    ((∀ (b : List Nat) (c : Nat), (basp_read b c).isSome = true) ∧
     ∃ m : new_basp_message, basp_read [] 0 = some m ∧
       m.payload_size = u64size - (basp_header_size - 0) ∧
       u64size - basp_header_size ≤ m.payload_size) :=
  ⟨by decide, c10_short_buffer_wraparound [] 0 (by decide)⟩

end ProtocolPolicy
